import Mathlib

/-!
Verification development for the `kubectl ray job submit` command
(`kubectl-plugin/pkg/cmd/job/job_submit.go`).

The Go source is shallowly embedded: pure helpers become Lean functions,
the effectful `Run` method becomes a function from an environment oracle
(the responses of the Kubernetes API, the HTTP probe, the subprocess) to a
trace of side-effecting actions together with a final result.  Wall-clock
time in the polling loops is discretised: each loop iteration advances the
clock by the 2-second sleep that starts the iteration (fetch latency is
treated as negligible), matching the loop structure
`for !ready && currTime.Sub(start).Seconds() <= timeout { sleep(2); ... }`.
-/

namespace RaySubmit

/-! ## String helpers (models of Go `strings` / `regexp` operations) -/

/-- `prefixOfL pat s` : `pat` is a leading segment of `s` (character lists). -/
def prefixOfL : List Char → List Char → Bool
  | [], _ => true
  | _ :: _, [] => false
  | a :: as, b :: bs => (a = b) && prefixOfL as bs

/-- Model of Go `strings.Contains` on character lists. -/
def containsL (pat : List Char) : List Char → Bool
  | [] => pat.isEmpty
  | c :: cs => prefixOfL pat (c :: cs) || containsL pat cs

/-- The job-identifier marker substring `"raysubmit"` used by the stdout scanner. -/
def markerChars : List Char := "raysubmit".data

/-- Split a character list on a separator character; the parts are the
maximal separator-free runs, in order (`k` separators yield `k+1` parts). -/
def splitOnChar (sep : Char) : List Char → List (List Char)
  | [] => [[]]
  | c :: cs =>
    if c = sep then [] :: splitOnChar sep cs
    else
      match splitOnChar sep cs with
      | r :: rs => (c :: r) :: rs
      | [] => [[c]]

/-- Split a character list on single-quote characters. -/
def splitOnQuote : List Char → List (List Char) := splitOnChar '\''

/-- Model of the scanner-goroutine extraction in `Run`
(`job_submit.go` lines 380-386): the guard `strings.Contains(line, "raysubmit")`
followed by `regexp.MustCompile(` plus the pattern quote-group-quote
`).FindStringSubmatch(line)`, keeping the first capture group.  For this
pattern, Go's leftmost-first matching returns the text of the first region
strictly between two consecutive single quotes that contains the marker. -/
def extractQuotedID (line : String) : Option String :=
  if containsL markerChars line.data then
    ((((splitOnQuote line.data).drop 1).dropLast).find? fun seg =>
        containsL markerChars seg).map String.mk
  else
    none

/-! ## Job-identifier correlation (scanner goroutine + channel handoff)

`scanTokenDelivery jobID lines` is the ordered list of values the scanner
goroutine sends over `rayJobIDChan` (lines 376-396): a send happens for a
non-empty line while `rayJobID` is still empty and the extraction succeeds;
the main flow receives exactly the first sent value (line 412) and stores it
in `rayJobID`, which the guard then sees as non-empty. -/
def scanTokenDelivery (jobID : String) : List String → List String
  | [] => []
  | line :: rest =>
    if line ≠ "" ∧ jobID = "" then
      match extractQuotedID line with
      | some id => id :: scanTokenDelivery id rest
      | none => scanTokenDelivery jobID rest
    else
      scanTokenDelivery jobID rest

/-- The identifier the main flow ends up with (lines 367-413): the
pre-supplied `--submission-id` when non-empty, otherwise the first value
received from the handoff channel (none if no line ever matches). -/
def deliveredJobID (submissionID : String) (lines : List String) : Option String :=
  if submissionID ≠ "" then some submissionID
  else (scanTokenDelivery "" lines).head?

/-- Modelled from the spec: "for each non-empty line ... extract the first
single-quoted substring containing that marker via pattern match and deliver
it once through a single-slot handoff ... first-match-wins".  Used as the
specification-side description the channel mechanism is compared against. -/
def firstMatchDelivery (lines : List String) : Option String :=
  lines.findSome? fun line => if line = "" then none else extractQuotedID line

/-- The annotation-merge step (lines 420-426): set the submission-id key. -/
def annotateJobID (annos : List (String × String)) (id : String) : List (String × String) :=
  ("ray.io/ray-job-submission-id", id) :: annos.filter fun kv => kv.1 ≠ "ray.io/ray-job-submission-id"

/-! ## Cluster readiness predicate (`isRayClusterReady`, lines 535-552) -/

/-- Model of `metav1.Condition`: only the fields the code inspects. -/
structure ConditionV1 where
  condType : String
  condStatus : String
deriving DecidableEq

/-- Model of `meta.IsStatusConditionTrue`: find the first condition with the
given type and test its status against `"True"`. -/
def IsStatusConditionTrue (conds : List ConditionV1) (t : String) : Bool :=
  match conds.find? fun c => c.condType = t with
  | some c => c.condStatus = "True"
  | none => false

/-- The dynamic shape of `rayCluster.Object["status"]` as seen by
`isRayClusterReady`: `conditions = some cs` iff the type assertion
`.([]v1.Condition)` succeeds (absence or a different dynamic type both give
`ok = false`), likewise `state = some s` for the `.(string)` assertion. -/
structure ClusterStatus where
  conditions : Option (List ConditionV1)
  state : Option String
deriving DecidableEq

/-- Model of `isRayClusterReady` (lines 535-552).  Returns the pair
(ready, error): `(true, none)` when readiness is determined, otherwise
`(false, some msg)` with the undetermined-state error. -/
def isRayClusterReady (st : ClusterStatus) : Bool × Option String :=
  let condReady : Bool :=
    match st.conditions with
    | some conds => IsStatusConditionTrue conds "Ready"
    | none => false
  let isReady : Bool :=
    match st.state with
    | some s => condReady || (s == "ready")
    | none => condReady
  if isReady then (true, none)
  else (false, some "Cannot determine cluster state")

/-! ## Shell tokenization (model of `github.com/google/shlex`.Split)

External dependency used by `raySubmitCmd` to sanitize the entrypoint.
State machine of the shlex lexer: whitespace separates words, single quotes
are non-escaping, double quotes allow backslash escapes, backslash escapes
the next rune outside quotes, `#` at the start of a token begins a
line-comment (comment tokens are skipped by `Split`); end of input inside a
quoted region or right after an escape character is a parse error. -/

inductive LexMode
  | start | word | esc | escQuoted | quotingEsc | quoting | comment
deriving DecidableEq

def isSpaceCh (c : Char) : Bool := c = ' ' || c = '\t' || c = '\r' || c = '\n'

def shlexRun : LexMode → List Char → List Char → List String → Except String (List String)
  | .start, _, [], acc => .ok acc
  | .start, _, c :: cs, acc =>
    if isSpaceCh c then shlexRun .start [] cs acc
    else if c = '\\' then shlexRun .esc [] cs acc
    else if c = '\'' then shlexRun .quoting [] cs acc
    else if c = '"' then shlexRun .quotingEsc [] cs acc
    else if c = '#' then shlexRun .comment [] cs acc
    else shlexRun .word [c] cs acc
  | .word, cur, [], acc => .ok (acc ++ [String.mk cur])
  | .word, cur, c :: cs, acc =>
    if isSpaceCh c then shlexRun .start [] cs (acc ++ [String.mk cur])
    else if c = '\\' then shlexRun .esc cur cs acc
    else if c = '\'' then shlexRun .quoting cur cs acc
    else if c = '"' then shlexRun .quotingEsc cur cs acc
    else shlexRun .word (cur ++ [c]) cs acc
  | .esc, _, [], _ => .error "EOF found after escape character"
  | .esc, cur, c :: cs, acc => shlexRun .word (cur ++ [c]) cs acc
  | .quoting, _, [], _ => .error "EOF found when expecting closing quote"
  | .quoting, cur, c :: cs, acc =>
    if c = '\'' then shlexRun .word cur cs acc
    else shlexRun .quoting (cur ++ [c]) cs acc
  | .quotingEsc, _, [], _ => .error "EOF found when expecting closing quote"
  | .quotingEsc, cur, c :: cs, acc =>
    if c = '"' then shlexRun .word cur cs acc
    else if c = '\\' then shlexRun .escQuoted cur cs acc
    else shlexRun .quotingEsc (cur ++ [c]) cs acc
  | .escQuoted, _, [], _ => .error "EOF found after escape character"
  | .escQuoted, cur, c :: cs, acc => shlexRun .quotingEsc (cur ++ [c]) cs acc
  | .comment, _, [], acc => .ok acc
  | .comment, cur, c :: cs, acc =>
    if c = '\n' then shlexRun .start [] cs acc
    else shlexRun .comment cur cs acc

/-- Model of `shlex.Split`. -/
def shlexSplit (s : String) : Except String (List String) :=
  shlexRun .start [] s.data []

deriving instance DecidableEq for Except

/-! ## The submission command builder (`raySubmitCmd`, lines 441-495) -/

def dashboardAddr : String := "http://localhost:8265"

/-- `clusterTimeout` constant (line 38), in seconds. -/
def clusterTimeout : Nat := 120

/-- `portforwardtimeout` constant (line 39), in seconds. -/
def portforwardtimeout : Nat := 60

def padZeros (s : String) (w : Nat) : String :=
  String.mk (List.replicate (w - s.length) '0') ++ s

/-- Model of Go `fmt.Sprintf` with the fixed-point float verb (6 decimal
places); the float32 field values are modelled as rationals. -/
def formatFloatGo (x : Rat) : String :=
  let sign := if x < 0 then "-" else ""
  let n : Nat := (|x| * 1000000 + 1/2).floor.toNat
  sign ++ toString (n / 1000000) ++ "." ++ padZeros (toString (n % 1000000)) 6

/-- The fields of `SubmitJobOptions` read by the command builder and the
orchestration; float32 fields become rationals, int becomes `Int`. -/
structure SubmitJobOptions where
  submissionID : String := ""
  entryPoint : String := ""
  fileName : String := ""
  workingDir : String := ""
  runtimeEnv : String := ""
  headers : String := ""
  verify : String := ""
  cluster : String := ""
  runtimeEnvJson : String := ""
  entryPointResource : String := ""
  metadataJson : String := ""
  logStyle : String := ""
  logColor : String := ""
  entryPointCPU : Rat := 0
  entryPointGPU : Rat := 0
  entryPointMemory : Int := 0
  noWait : Bool := false
deriving DecidableEq

/-- Model of `(options *SubmitJobOptions) raySubmitCmd()` (lines 441-495):
each Go `if` guard `len(s) > 0` becomes `0 < s.length`, numeric guards stay
`0 < x`; appends happen in the source order, ending with the always-present
working-dir flag, the separator, and the shlex-tokenized entrypoint. -/
def raySubmitCmd (options : SubmitJobOptions) : Except String (List String) :=
  let cmd := ["ray", "job", "submit", "--address", dashboardAddr]
  let cmd := if 0 < options.runtimeEnv.length then cmd ++ ["--runtime-env", options.runtimeEnv] else cmd
  let cmd := if 0 < options.runtimeEnvJson.length then cmd ++ ["--runtime-env-json", options.runtimeEnvJson] else cmd
  let cmd := if 0 < options.submissionID.length then cmd ++ ["--submission-id", options.submissionID] else cmd
  let cmd := if 0 < options.entryPointCPU then cmd ++ ["--entrypoint-num-cpus", formatFloatGo options.entryPointCPU] else cmd
  let cmd := if 0 < options.entryPointGPU then cmd ++ ["--entrypoint-num-gpus", formatFloatGo options.entryPointGPU] else cmd
  let cmd := if 0 < options.entryPointMemory then cmd ++ ["--entrypoint-memory", toString options.entryPointMemory] else cmd
  let cmd := if 0 < options.entryPointResource.length then cmd ++ ["--entrypoint-resource", options.entryPointResource] else cmd
  let cmd := if 0 < options.metadataJson.length then cmd ++ ["--metadata-json", options.metadataJson] else cmd
  let cmd := if options.noWait then cmd ++ ["--no-wait"] else cmd
  let cmd := if 0 < options.headers.length then cmd ++ ["--headers", options.headers] else cmd
  let cmd := if 0 < options.verify.length then cmd ++ ["--verify", options.verify] else cmd
  let cmd := if 0 < options.logStyle.length then cmd ++ ["--log-style", options.logStyle] else cmd
  let cmd := if 0 < options.logColor.length then cmd ++ ["--log-color", options.logColor] else cmd
  let cmd := cmd ++ ["--working-dir", options.workingDir]
  let cmd := cmd ++ ["--"]
  match shlexSplit options.entryPoint with
  | .error e => .error e
  | .ok toks => .ok (cmd ++ toks)

/-- An optional flag segment, present only when its source value is. -/
def optFlag (present : Prop) [Decidable present] (flag val : String) : List String :=
  if present then [flag, val] else []

/-- Modelled from the spec (§4.5): the argument vector as the spec words it —
base command plus endpoint address, the optional flags each emitted in the
fixed order only when present/non-zero, the always-emitted working-directory
flag, the separator token, then the shell-tokenized entrypoint. -/
def raySubmitCmdSpec (o : SubmitJobOptions) : Except String (List String) :=
  (shlexSplit o.entryPoint).map fun entry =>
    ["ray", "job", "submit", "--address", dashboardAddr]
    ++ optFlag (0 < o.runtimeEnv.length) "--runtime-env" o.runtimeEnv
    ++ optFlag (0 < o.runtimeEnvJson.length) "--runtime-env-json" o.runtimeEnvJson
    ++ optFlag (0 < o.submissionID.length) "--submission-id" o.submissionID
    ++ optFlag (0 < o.entryPointCPU) "--entrypoint-num-cpus" (formatFloatGo o.entryPointCPU)
    ++ optFlag (0 < o.entryPointGPU) "--entrypoint-num-gpus" (formatFloatGo o.entryPointGPU)
    ++ optFlag (0 < o.entryPointMemory) "--entrypoint-memory" (toString o.entryPointMemory)
    ++ optFlag (0 < o.entryPointResource.length) "--entrypoint-resource" o.entryPointResource
    ++ optFlag (0 < o.metadataJson.length) "--metadata-json" o.metadataJson
    ++ (if o.noWait then ["--no-wait"] else [])
    ++ optFlag (0 < o.headers.length) "--headers" o.headers
    ++ optFlag (0 < o.verify.length) "--verify" o.verify
    ++ optFlag (0 < o.logStyle.length) "--log-style" o.logStyle
    ++ optFlag (0 < o.logColor.length) "--log-color" o.logColor
    ++ ["--working-dir", o.workingDir]
    ++ ["--"]
    ++ entry

/-- State-threaded translation of `raySubmitCmd`: the Go method has a pointer
receiver, so each statement is modelled as a transition on the pair
(vector built so far, receiver); the source only reads the receiver, so each
step passes it through unchanged, which is what the purity theorem checks. -/
def raySubmitCmdSt (options : SubmitJobOptions) :
    Except String (List String) × SubmitJobOptions :=
  let s := (["ray", "job", "submit", "--address", dashboardAddr], options)
  let s := if 0 < s.2.runtimeEnv.length then (s.1 ++ ["--runtime-env", s.2.runtimeEnv], s.2) else s
  let s := if 0 < s.2.runtimeEnvJson.length then (s.1 ++ ["--runtime-env-json", s.2.runtimeEnvJson], s.2) else s
  let s := if 0 < s.2.submissionID.length then (s.1 ++ ["--submission-id", s.2.submissionID], s.2) else s
  let s := if 0 < s.2.entryPointCPU then (s.1 ++ ["--entrypoint-num-cpus", formatFloatGo s.2.entryPointCPU], s.2) else s
  let s := if 0 < s.2.entryPointGPU then (s.1 ++ ["--entrypoint-num-gpus", formatFloatGo s.2.entryPointGPU], s.2) else s
  let s := if 0 < s.2.entryPointMemory then (s.1 ++ ["--entrypoint-memory", toString s.2.entryPointMemory], s.2) else s
  let s := if 0 < s.2.entryPointResource.length then (s.1 ++ ["--entrypoint-resource", s.2.entryPointResource], s.2) else s
  let s := if 0 < s.2.metadataJson.length then (s.1 ++ ["--metadata-json", s.2.metadataJson], s.2) else s
  let s := if s.2.noWait then (s.1 ++ ["--no-wait"], s.2) else s
  let s := if 0 < s.2.headers.length then (s.1 ++ ["--headers", s.2.headers], s.2) else s
  let s := if 0 < s.2.verify.length then (s.1 ++ ["--verify", s.2.verify], s.2) else s
  let s := if 0 < s.2.logStyle.length then (s.1 ++ ["--log-style", s.2.logStyle], s.2) else s
  let s := if 0 < s.2.logColor.length then (s.1 ++ ["--log-color", s.2.logColor], s.2) else s
  let s := (s.1 ++ ["--working-dir", s.2.workingDir], s.2)
  let s := (s.1 ++ ["--"], s.2)
  match shlexSplit s.2.entryPoint with
  | .error e => (.error e, s.2)
  | .ok toks => (.ok (s.1 ++ toks), s.2)

/-- Two successive builder invocations, the second on the receiver left by
the first. -/
def buildTwice (o : SubmitJobOptions) :
    Except String (List String) × Except String (List String) :=
  let r1 := raySubmitCmdSt o
  let r2 := raySubmitCmdSt r1.2
  (r1.1, r2.1)

/-! ## Go dynamic values and the `Validate` method (lines 153-224) -/

/-- The dynamic (`interface{}`) values the code inspects: nil, strings, and
string-keyed maps; `other` stands for any further dynamic type (numbers,
lists, ...), on which every type assertion the code performs fails. -/
inductive GoVal
  | nilv
  | str (s : String)
  | mapv (m : List (String × GoVal))
  | other

/-- Two-valued Go map lookup (`v, ok := m[k]`): `some` iff the key exists. -/
def lookupGo (m : List (String × GoVal)) (k : String) : Option GoVal :=
  (m.find? fun kv => kv.1 = k).map fun kv => kv.2

/-- Single-valued Go map index: a missing key yields the nil interface. -/
def mapIndex (m : List (String × GoVal)) (k : String) : GoVal :=
  (lookupGo m k).getD .nilv

/-- Result of code that may hit a failed unchecked type assertion. -/
inductive GoRes (α : Type)
  | panicked
  | val (a : α)
deriving DecidableEq

/-- Model of `runtimeEnvHasWorkingDir` (lines 515-533) after the file read and
YAML unmarshal succeeded: the unchecked assertion
`runtimeEnvYaml[` working_dir `].(string)` panics when the key is absent (nil
interface) or holds a non-string; otherwise both source branches return the
string. -/
def runtimeEnvHasWorkingDir (runtimeEnvYaml : List (String × GoVal)) : GoRes String :=
  match mapIndex runtimeEnvYaml "working_dir" with
  | .str s => .val s
  | _ => .panicked

/-- Model of Go `path/filepath.Clean` (separator `/`): drop empty and `.`
components, resolve `..` against the stack, keep leading `..` on relative
paths, return `.` for an empty relative result. -/
def filepathClean (path : String) : String :=
  if path = "" then "."
  else
    let rooted : Bool := path.data.head? == some '/'
    let comps := (splitOnChar '/' path.data).filter fun c => !(c == [] || c == ['.'])
    let stack := comps.foldl (fun acc c =>
      if c == ['.', '.'] then
        match acc with
        | [] => if rooted then [] else [c]
        | a :: rest => if a == ['.', '.'] then c :: a :: rest else rest
      else c :: acc) []
    let joined := String.mk (List.intercalate ['/'] stack.reverse)
    if rooted then "/" ++ joined
    else if joined = "" then "." else joined

/-- Model of `Complete` (lines 140-151): clean the runtime-env path when set
and always clean the RayJob file path (the namespace default is out of
scope of the claims). -/
def Complete (opts : SubmitJobOptions) : SubmitJobOptions :=
  let opts :=
    if 0 < opts.runtimeEnv.length then
      { opts with runtimeEnv := filepathClean opts.runtimeEnv }
    else opts
  { opts with fileName := filepathClean opts.fileName }

/-- `os.Stat` oracle outcomes distinguished by `Validate`. -/
inductive FileStat
  | missing
  | statErr
  | notRegular
  | regular
deriving DecidableEq

/-- Environment oracle for `Validate`: kube-config state, the two stat calls,
the runtime-env file read/unmarshal, the RayJob YAML decode, and the
YAML-to-JSON conversion of the inline runtime environment. -/
structure ValidateEnv where
  rawConfigErr : Bool := false
  currentContext : String := "ctx"
  runtimeEnvStat : FileStat := .regular
  runtimeEnvRead : Option (List (String × GoVal)) := some []
  rayJobStat : FileStat := .regular
  decodedRayJob : Option (List (String × GoVal)) := none
  yamlToJson : String → Option String := fun s => some s

inductive ValidateRes
  | panicked
  | failed (msg : String)
  | ok (opts : SubmitJobOptions)
deriving DecidableEq

/-- Model of the runtime-env block of `Validate` (lines 163-180): stat the
file, read and unmarshal it, and seed the working directory from its
`working_dir` entry when the flag did not set one. -/
def validateRuntimeEnv (opts : SubmitJobOptions) (env : ValidateEnv) : ValidateRes :=
  if 0 < opts.runtimeEnv.length then
    match env.runtimeEnvStat with
    | .missing => .failed "Runtime Env file does not exist."
    | .statErr => .failed "Error occurred when checking runtime env file"
    | .notRegular => .failed "Filename given is not a regular file."
    | .regular =>
      match env.runtimeEnvRead with
      | none => .failed "Error while checking runtime env"
      | some m =>
        match runtimeEnvHasWorkingDir m with
        | .panicked => .panicked
        | .val wd =>
          if 0 < wd.length ∧ opts.workingDir = "" then
            .ok { opts with workingDir := wd }
          else .ok opts
  else .ok opts

/-- Model of the inline runtime-env handling of `Validate` (lines 208-215):
when `spec.runtimeEnvYAML` is a string and neither override flag is set,
convert it to JSON (`none` = conversion failure). -/
def validateRuntimeEnvJson (opts : SubmitJobOptions) (env : ValidateEnv)
    (specMap : List (String × GoVal)) : Option SubmitJobOptions :=
  match mapIndex specMap "runtimeEnvYAML" with
  | .str runtimeEnvYaml =>
    if opts.runtimeEnv = "" ∧ opts.runtimeEnvJson = "" then
      match env.yamlToJson runtimeEnvYaml with
      | none => none
      | some j => some { opts with runtimeEnvJson := j }
    else some opts
  | _ => some opts

/-- Model of the spec checks of `Validate` (lines 196-223): the unchecked
`.(map[string]interface)` assertion on `spec` (panics when `spec` is absent
or not a mapping), the submission-mode checks, the inline runtime-env
conversion, and the required working-directory check followed by the final
clean. -/
def validateSpec (opts : SubmitJobOptions) (env : ValidateEnv)
    (rayJobObj : List (String × GoVal)) : ValidateRes :=
  match mapIndex rayJobObj "spec" with
  | .mapv specMap =>
    match lookupGo specMap "submissionMode" with
    | none => .failed "RayJob does not have submissionMode field set"
    | some .nilv => .failed "Submission mode must be set to InteractiveMode"
    | some (.str s) =>
      if s = "InteractiveMode" then
        match validateRuntimeEnvJson opts env specMap with
        | none => .failed "Failed to convert runtime env to json"
        | some opts =>
          if opts.workingDir = "" then
            .failed "working directory is required, use --working-dir or set with runtime env"
          else .ok { opts with workingDir := filepathClean opts.workingDir }
      else .failed "Submission mode of the Ray Job is not supported"
    | some (.mapv _) => .failed "Submission mode of the Ray Job is not supported"
    | some .other => .failed "Submission mode of the Ray Job is not supported"
  | _ => .panicked

/-- Model of `Validate` (lines 153-224), in source order: kube-config checks,
the runtime-env block, RayJob file checks and decode, then the spec checks. -/
def Validate (opts : SubmitJobOptions) (env : ValidateEnv) : ValidateRes :=
  if env.rawConfigErr then .failed "Error retrieving raw config"
  else if env.currentContext.length = 0 then .failed "no context is currently set"
  else
    match validateRuntimeEnv opts env with
    | .panicked => .panicked
    | .failed msg => .failed msg
    | .ok opts =>
      match env.rayJobStat with
      | .missing => .failed "Ray Job file does not exist."
      | .statErr => .failed "Error occurred when checking ray job file"
      | .notRegular => .failed "Filename given is not a regular file."
      | .regular =>
        match env.decodedRayJob with
        | none => .failed "Failed to decode RayJob Yaml"
        | some rayJobObj => validateSpec opts env rayJobObj

/-! ## The `Run` orchestration (lines 226-439), as an action-trace model -/

/-- The side-effecting operations `Run` performs against its collaborators,
in order of occurrence in the trace. -/
inductive Action
  | createJob
  | getJobStatus (i : Nat)
  | getCluster (i : Nat)
  | deleteJob
  | getSvcName
  | probe (i : Nat)
  | buildCmd
  | startProcess
deriving DecidableEq

/-- Final outcome of a (modelled) `Run`: normal return, an error return with
the wrapping message, a runtime panic, or spinning forever in the unbounded
status poll (modelled by fuel exhaustion). -/
inductive RunResult
  | ok
  | err (msg : String)
  | panicked
  | spin
deriving DecidableEq

def createErrMsg : String := "Error when creating RayJob CR"
def statusGetErrMsg : String := "Failed to get Ray Job status"
def clusterStatusCastMsg : String := "Unable to find ray cluster status"
def noClusterNameMsg : String := "No cluster name available even after status of Ray Job is set"
def unknownClusterMsg : String := "Unknown cluster and did not provide Ray Job. One of the fields must be set"
def clusterFetchErrMsg : String := "Failed to get cluster information with error"
def deleteFailMsg : String := "Failed to clean up ray job after time out."
def clusterTimeoutMsg : String := "Timed out waiting for cluster"
def svcErrMsg : String := "Failed to find service name"
def pfTimeoutMsg : String := "Timed out waiting for port forwarding"
def buildErrMsg : String := "failed to create Ray submit command with error"

/-- Verdict of one poll-loop iteration body. -/
inductive StepRes
  | ready
  | notReady
  | abort (r : RunResult)
deriving DecidableEq

/-- How a poll loop ended. -/
inductive LoopOut
  | ready
  | timeout
  | abort (r : RunResult)
  | fuelOut
deriving DecidableEq

/-- Result of a poll loop: its action trace, how it ended, the elapsed
seconds at exit, and how many fetches it performed. -/
structure LoopRes where
  trace : List Action
  out : LoopOut
  elapsed : Nat
  fetches : Nat
deriving DecidableEq

/-- The common poll-loop skeleton of the two readiness waits
(`for !ready && currTime.Sub(start).Seconds() <= timeout { sleep(2); fetch;
evaluate; currTime = now }`): the clock is discretised to the 2-second sleep
per iteration; `fuel` is an upper bound on iterations, strictly larger than
the `timeout/2 + 1` the elapsed-time guard admits (see `genLoopF_no_fuelOut`),
so the `fuelOut` outcome is unreachable from `genLoop`. -/
def genLoopF (step : Nat → StepRes) (act : Nat → Action) (timeout : Nat) :
    Nat → Nat → Nat → LoopRes
  | fuel, i, elapsed =>
    if elapsed ≤ timeout then
      match fuel with
      | 0 => ⟨[], .fuelOut, elapsed, i⟩
      | fuel + 1 =>
        match step i with
        | .abort r => ⟨[act i], .abort r, elapsed + 2, i + 1⟩
        | .ready => ⟨[act i], .ready, elapsed + 2, i + 1⟩
        | .notReady =>
          let rest := genLoopF step act timeout fuel (i + 1) (elapsed + 2)
          ⟨act i :: rest.trace, rest.out, rest.elapsed, rest.fetches⟩
    else ⟨[], .timeout, elapsed, i⟩

def genLoop (step : Nat → StepRes) (act : Nat → Action) (timeout : Nat) : LoopRes :=
  genLoopF step act timeout (timeout / 2 + 2) 0 0

/-- Environment oracle for `Run`: the create outcome, the name the control
plane assigned, the status-poll responses, the dynamic value found at
`status.rayClusterName`, the cluster fetches, the delete and service-name
outcomes, and the HTTP probe responses (`none` = transport error, so the
response pointer is nil). -/
structure RunEnv where
  createErr : Bool := false
  jobName : String := "rayjob-sample"
  initialStatusNil : Bool := false
  statusFuel : Nat := 1
  statusGetErr : Nat → Bool := fun _ => false
  statusNilAfterGet : Nat → Bool := fun _ => false
  clusterNameVal : GoVal := .str "raycluster-sample"
  clusterFetchErr : Nat → Bool := fun _ => false
  clusterStatus : Nat → ClusterStatus := fun _ => ⟨none, some "ready"⟩
  deleteErr : Bool := false
  svcErr : Bool := false
  probeResp : Nat → Option Nat := fun _ => some 200

/-- Outcome of the unbounded `status == nil` poll (lines 241-247). -/
inductive StatusOut
  | done
  | fatalGet
  | spinOut
deriving DecidableEq

/-- The unbounded status-existence poll (lines 241-247): loop while the
status field is nil; a Get error returns fatally at once; no deadline bounds
the loop (`fuel` models how long the run is observed; exhaustion = `spinOut`). -/
def statusLoop (env : RunEnv) : Nat → Nat → Bool → List Action × StatusOut
  | _, _, false => ([], .done)
  | 0, _, true => ([], .spinOut)
  | fuel + 1, i, true =>
    if env.statusGetErr i then ([.getJobStatus i], .fatalGet)
    else
      let rest := statusLoop env fuel (i + 1) (env.statusNilAfterGet i)
      (.getJobStatus i :: rest.1, rest.2)

/-- One iteration body of the cluster-readiness loop (lines 266-278): a Get
error returns fatally at once; otherwise the `isRayClusterReady` verdict
decides between exiting ready and — after printing the undetermined-state
error — continuing to poll. -/
def clusterStep (env : RunEnv) (i : Nat) : StepRes :=
  if env.clusterFetchErr i then .abort (.err clusterFetchErrMsg)
  else if (isRayClusterReady (env.clusterStatus i)).1 then .ready
  else .notReady

/-- One iteration body of the port-forward readiness loop (lines 323-335):
when `httpClient.Do` returns a transport error the response is nil; the code
logs the error and then unconditionally reads the response's status code —
a nil-pointer dereference, modelled as `panicked`.  A non-nil response is
ready exactly when its status code lies in [200,300). -/
def pfStep (env : RunEnv) (i : Nat) : StepRes :=
  match env.probeResp i with
  | none => .abort .panicked
  | some code => if 200 ≤ code ∧ code < 300 then .ready else .notReady

/-- The cluster-readiness wait (lines 261-278) as a poll loop. -/
def clusterReadyLoop (env : RunEnv) : LoopRes :=
  genLoop (clusterStep env) Action.getCluster clusterTimeout

/-- The port-forward readiness wait (lines 311-335) as a poll loop. -/
def portforwardLoop (env : RunEnv) : LoopRes :=
  genLoop (pfStep env) Action.probe portforwardtimeout

/-- Model of `Run` (lines 226-439) up to the launch of the submission
process: create the RayJob, poll for its status, extract the backing cluster
name, poll cluster readiness (deleting the RayJob on timeout), resolve the
head service, poll the port-forward probe, and build the submission command.
Each collaborator response comes from the `RunEnv` oracle; the returned list
is the ordered trace of side-effecting operations. -/
def runModel (opts : SubmitJobOptions) (env : RunEnv) : List Action × RunResult :=
  if env.createErr then ([.createJob], .err createErrMsg)
  else if 0 < env.jobName.length then
    match statusLoop env env.statusFuel 0 env.initialStatusNil with
    | (tr, .fatalGet) => (Action.createJob :: tr, .err statusGetErrMsg)
    | (tr, .spinOut) => (Action.createJob :: tr, .spin)
    | (tr, .done) =>
      match env.clusterNameVal with
      | .str clusterName =>
        if 0 < clusterName.length then
          let cl := clusterReadyLoop env
          match cl.out with
          | .abort r => (Action.createJob :: tr ++ cl.trace, r)
          | .fuelOut => (Action.createJob :: tr ++ cl.trace, .spin)
          | .timeout =>
            if env.deleteErr then
              (Action.createJob :: tr ++ cl.trace ++ [.deleteJob], .err deleteFailMsg)
            else
              (Action.createJob :: tr ++ cl.trace ++ [.deleteJob], .err clusterTimeoutMsg)
          | .ready =>
            if env.svcErr then
              (Action.createJob :: tr ++ cl.trace ++ [.getSvcName], .err svcErrMsg)
            else
              let pf := portforwardLoop env
              match pf.out with
              | .abort r =>
                (Action.createJob :: tr ++ cl.trace ++ [.getSvcName] ++ pf.trace, r)
              | .fuelOut =>
                (Action.createJob :: tr ++ cl.trace ++ [.getSvcName] ++ pf.trace, .spin)
              | .timeout =>
                (Action.createJob :: tr ++ cl.trace ++ [.getSvcName] ++ pf.trace,
                  .err pfTimeoutMsg)
              | .ready =>
                match raySubmitCmd opts with
                | .error _ =>
                  (Action.createJob :: tr ++ cl.trace ++ [.getSvcName] ++ pf.trace,
                    .err buildErrMsg)
                | .ok _ =>
                  (Action.createJob :: tr ++ cl.trace ++ [.getSvcName] ++ pf.trace
                      ++ [.buildCmd, .startProcess],
                    .ok)
        else (Action.createJob :: tr, .err noClusterNameMsg)
      | _ => (Action.createJob :: tr, .err clusterStatusCastMsg)
  else ([.createJob], .err unknownClusterMsg)

/-- The whole command pipeline as wired in `NewJobSubmitCommand` (lines
105-115): `Complete`, then `Validate`, then `Run`; a validation failure (or
panic) returns before any side effect of `Run` happens. -/
def runE (opts : SubmitJobOptions) (venv : ValidateEnv) (renv : RunEnv) :
    List Action × RunResult :=
  match Validate (Complete opts) venv with
  | .panicked => ([], .panicked)
  | .failed msg => ([], .err msg)
  | .ok opts2 => runModel opts2 renv

/-! ## Generic poll-loop lemmas -/

theorem genLoopF_no_fuelOut (step : Nat → StepRes) (act : Nat → Action) (t : Nat) :
    ∀ fuel i e, t < e + 2 * fuel → (genLoopF step act t fuel i e).out ≠ .fuelOut := by
  intro fuel
  induction fuel with
  | zero =>
    intro i e ht
    unfold genLoopF
    rw [if_neg (by omega)]
    simp
  | succ fuel ih =>
    intro i e ht
    unfold genLoopF
    split
    · cases hs : step i with
      | abort r => simp [hs]
      | ready => simp [hs]
      | notReady =>
        simp only [hs]
        exact ih (i + 1) (e + 2) (by omega)
    · simp

theorem genLoopF_trace_acts (step : Nat → StepRes) (act : Nat → Action) (t : Nat) :
    ∀ fuel i e a, a ∈ (genLoopF step act t fuel i e).trace → ∃ j, a = act j := by
  intro fuel
  induction fuel with
  | zero =>
    intro i e a ha
    unfold genLoopF at ha
    split at ha <;> simp at ha
  | succ fuel ih =>
    intro i e a ha
    unfold genLoopF at ha
    split at ha
    · cases hs : step i with
      | abort r => rw [hs] at ha; simp at ha; exact ⟨i, ha⟩
      | ready => rw [hs] at ha; simp at ha; exact ⟨i, ha⟩
      | notReady =>
        rw [hs] at ha
        simp only [List.mem_cons] at ha
        rcases ha with ha | ha
        · exact ⟨i, ha⟩
        · exact ih (i + 1) (e + 2) a ha
    · simp at ha

theorem genLoopF_timeout (step : Nat → StepRes) (act : Nat → Action) (t : Nat)
    (hstep : ∀ j, step j = .notReady) :
    ∀ fuel i e, e ≤ t + 2 → t < e + 2 * fuel →
      (genLoopF step act t fuel i e).out = .timeout
      ∧ t < (genLoopF step act t fuel i e).elapsed
      ∧ (genLoopF step act t fuel i e).elapsed ≤ t + 2 := by
  intro fuel
  induction fuel with
  | zero =>
    intro i e he ht
    unfold genLoopF
    rw [if_neg (by omega)]
    dsimp only
    exact ⟨rfl, by omega, he⟩
  | succ fuel ih =>
    intro i e he ht
    unfold genLoopF
    split
    · rename_i hle
      simp only [hstep i]
      exact ih (i + 1) (e + 2) (by omega) (by omega)
    · rename_i hgt
      dsimp only
      exact ⟨rfl, by omega, he⟩

theorem genLoopF_ready (step : Nat → StepRes) (act : Nat → Action) (t k : Nat)
    (hbefore : ∀ j, j < k → step j = .notReady) (hk : step k = .ready) (hkt : 2 * k ≤ t) :
    ∀ fuel i, i ≤ k → k - i < fuel →
      (genLoopF step act t fuel i (2 * i)).out = .ready
      ∧ (genLoopF step act t fuel i (2 * i)).elapsed = 2 * k + 2
      ∧ (genLoopF step act t fuel i (2 * i)).fetches = k + 1 := by
  intro fuel
  induction fuel with
  | zero => intro i _ h; omega
  | succ fuel ih =>
    intro i hik hfu
    unfold genLoopF
    rw [if_pos (by omega)]
    rcases eq_or_lt_of_le hik with heq | hlt
    · subst heq
      simp [hk]
    · simp only [hbefore i hlt]
      have := ih (i + 1) (by omega) (by omega)
      rw [show 2 * i + 2 = 2 * (i + 1) by omega]
      exact this

theorem genLoopF_abort (step : Nat → StepRes) (act : Nat → Action) (t k : Nat) (r : RunResult)
    (hbefore : ∀ j, j < k → step j = .notReady) (hk : step k = .abort r) (hkt : 2 * k ≤ t) :
    ∀ fuel i, i ≤ k → k - i < fuel →
      (genLoopF step act t fuel i (2 * i)).out = .abort r
      ∧ (genLoopF step act t fuel i (2 * i)).fetches = k + 1 := by
  intro fuel
  induction fuel with
  | zero => intro i _ h; omega
  | succ fuel ih =>
    intro i hik hfu
    unfold genLoopF
    rw [if_pos (by omega)]
    rcases eq_or_lt_of_le hik with heq | hlt
    · subst heq
      simp [hk]
    · simp only [hbefore i hlt]
      have := ih (i + 1) (by omega) (by omega)
      rw [show 2 * i + 2 = 2 * (i + 1) by omega]
      exact this

theorem genLoop_timeout (step : Nat → StepRes) (act : Nat → Action) (t : Nat)
    (hstep : ∀ j, step j = .notReady) :
    (genLoop step act t).out = .timeout
    ∧ t < (genLoop step act t).elapsed
    ∧ (genLoop step act t).elapsed ≤ t + 2 := by
  unfold genLoop
  exact genLoopF_timeout step act t hstep (t / 2 + 2) 0 0 (by omega) (by omega)

theorem genLoop_ready (step : Nat → StepRes) (act : Nat → Action) (t : Nat)
    (habort : ∀ j r, step j ≠ .abort r)
    (hex : ∃ k, step k = .ready ∧ 2 * k ≤ t) :
    (genLoop step act t).out = .ready
    ∧ 1 ≤ (genLoop step act t).fetches
    ∧ (genLoop step act t).fetches ≤ t / 2 + 1 := by
  classical
  obtain ⟨k, hk, hkt⟩ := hex
  have hexr : ∃ m, step m = .ready := ⟨k, hk⟩
  set k0 := Nat.find hexr with hk0
  have hk0r : step k0 = .ready := Nat.find_spec hexr
  have hk0le : k0 ≤ k := Nat.find_min' hexr hk
  have hbefore : ∀ j, j < k0 → step j = .notReady := by
    intro j hj
    have hnr : step j ≠ .ready := Nat.find_min hexr hj
    cases hsj : step j with
    | ready => exact absurd hsj hnr
    | notReady => rfl
    | abort r => exact absurd hsj (habort j r)
  have h := genLoopF_ready step act t k0 hbefore hk0r (by omega) (t / 2 + 2) 0
    (by omega) (by omega)
  simp only [Nat.mul_zero] at h
  unfold genLoop
  have h2 := h.2.2
  have hle : 2 * k0 ≤ t := by omega
  exact ⟨h.1, by omega, by omega⟩

/-! ## Further structural lemmas about the run model -/

theorem genLoopF_no_abort (step : Nat → StepRes) (act : Nat → Action) (t : Nat)
    (habort : ∀ j r, step j ≠ .abort r) :
    ∀ fuel i e r, (genLoopF step act t fuel i e).out ≠ .abort r := by
  intro fuel
  induction fuel with
  | zero =>
    intro i e r
    unfold genLoopF
    split <;> simp
  | succ fuel ih =>
    intro i e r
    unfold genLoopF
    split
    · cases hs : step i with
      | abort r2 => exact absurd hs (habort i r2)
      | ready => simp
      | notReady => exact ih (i + 1) (e + 2) r
    · simp

theorem genLoop_trace_acts (step : Nat → StepRes) (act : Nat → Action) (t : Nat) :
    ∀ a, a ∈ (genLoop step act t).trace → ∃ j, a = act j := by
  intro a ha
  exact genLoopF_trace_acts step act t (t / 2 + 2) 0 0 a ha

theorem statusLoop_trace_gets (env : RunEnv) :
    ∀ fuel i b a, a ∈ (statusLoop env fuel i b).1 → ∃ j, a = .getJobStatus j := by
  intro fuel
  induction fuel with
  | zero =>
    intro i b a ha
    cases b <;> simp [statusLoop] at ha
  | succ fuel ih =>
    intro i b a ha
    cases b with
    | false => simp [statusLoop] at ha
    | true =>
      unfold statusLoop at ha
      split at ha
      · simp at ha
        exact ⟨i, ha⟩
      · simp only [List.mem_cons] at ha
        rcases ha with ha | ha
        · exact ⟨i, ha⟩
        · exact ih _ _ a ha

theorem clusterStep_no_abort (env : RunEnv) (j : Nat)
    (hf : env.clusterFetchErr j = false) :
    ∀ r, clusterStep env j ≠ .abort r := by
  intro r
  simp [clusterStep, hf]
  split <;> simp

theorem pfStep_no_abort (env : RunEnv) (j : Nat) {c : Nat}
    (hc : env.probeResp j = some c) :
    ∀ r, pfStep env j ≠ .abort r := by
  intro r
  simp [pfStep, hc]
  split <;> simp

/-- `startProcess` only ever enters the trace through the final branch of
`runModel`, whose guard is a successful command build. -/
theorem startProcess_mem (opts : SubmitJobOptions) (env : RunEnv)
    (h : Action.startProcess ∈ (runModel opts env).1) :
    ∃ toks, raySubmitCmd opts = .ok toks := by
  have hcl : Action.startProcess ∉ (clusterReadyLoop env).trace := by
    intro hm
    obtain ⟨j, hj⟩ := genLoop_trace_acts (clusterStep env) Action.getCluster clusterTimeout _ hm
    simp at hj
  have hpf : Action.startProcess ∉ (portforwardLoop env).trace := by
    intro hm
    obtain ⟨j, hj⟩ := genLoop_trace_acts (pfStep env) Action.probe portforwardtimeout _ hm
    simp at hj
  have hsl : Action.startProcess ∉ (statusLoop env env.statusFuel 0 env.initialStatusNil).1 := by
    intro hm
    obtain ⟨j, hj⟩ := statusLoop_trace_gets env env.statusFuel 0 env.initialStatusNil _ hm
    simp at hj
  unfold runModel at h
  split at h
  · simp at h
  split at h
  case isFalse => simp at h
  rcases hst : statusLoop env env.statusFuel 0 env.initialStatusNil with ⟨tr, so⟩
  rw [hst] at h hsl
  cases so <;> dsimp only at h
  case fatalGet => exact absurd ((List.mem_cons.mp h).resolve_left (by simp)) hsl
  case spinOut => exact absurd ((List.mem_cons.mp h).resolve_left (by simp)) hsl
  case done =>
  cases hcv : env.clusterNameVal <;> rw [hcv] at h <;> dsimp only at h
  case nilv => exact absurd ((List.mem_cons.mp h).resolve_left (by simp)) hsl
  case mapv => exact absurd ((List.mem_cons.mp h).resolve_left (by simp)) hsl
  case other => exact absurd ((List.mem_cons.mp h).resolve_left (by simp)) hsl
  case str name =>
  split at h
  case isFalse => exact absurd ((List.mem_cons.mp h).resolve_left (by simp)) hsl
  case isTrue =>
  have hdis : ∀ hx : Action.startProcess ∈
      Action.createJob :: tr ++ (clusterReadyLoop env).trace, False := by
    intro hx
    rcases List.mem_cons.mp hx with hx | hx
    · simp at hx
    · rcases List.mem_append.mp hx with hx | hx
      · exact hsl hx
      · exact hcl hx
  split at h
  case h_1 => exact absurd h hdis
  case h_2 => exact absurd h hdis
  case h_3 =>
    split at h <;>
      · exfalso
        rcases List.mem_cons.mp h with hx | hx
        · simp at hx
        · rcases List.mem_append.mp hx with hx | hx
          · exact hdis (List.mem_cons.mpr (Or.inr hx))
          · simp at hx
  case h_4 =>
  split at h
  case isTrue =>
    exfalso
    rcases List.mem_cons.mp h with hx | hx
    · simp at hx
    · rcases List.mem_append.mp hx with hx | hx
      · exact hdis (List.mem_cons.mpr (Or.inr hx))
      · simp at hx
  case isFalse =>
  have hdis2 : ∀ hx : Action.startProcess ∈
      Action.createJob :: tr ++ (clusterReadyLoop env).trace ++ [Action.getSvcName]
        ++ (portforwardLoop env).trace, False := by
    intro hx
    rcases List.mem_cons.mp hx with hx | hx
    · simp at hx
    · rcases List.mem_append.mp hx with hx | hx
      · rcases List.mem_append.mp hx with hx | hx
        · exact hdis (List.mem_cons.mpr (Or.inr hx))
        · simp at hx
      · exact hpf hx
  split at h
  case h_1 => exact absurd h hdis2
  case h_2 => exact absurd h hdis2
  case h_3 => exact absurd h hdis2
  case h_4 =>
  split at h
  case h_1 => exact absurd h hdis2
  case h_2 =>
    rename_i toks heq
    exact ⟨toks, heq⟩

/-! ## Lemmas about the validation stages -/

theorem append_ite (l : List String) (c : Prop) [Decidable c] (x : List String) :
    (if c then l ++ x else l) = l ++ (if c then x else []) := by
  split <;> simp

theorem validateRuntimeEnvJson_workingDir (opts : SubmitJobOptions) (venv : ValidateEnv)
    (sm : List (String × GoVal)) (o2 : SubmitJobOptions)
    (h : validateRuntimeEnvJson opts venv sm = some o2) :
    o2.workingDir = opts.workingDir := by
  unfold validateRuntimeEnvJson at h
  split at h
  · split at h
    · split at h
      · exact Option.noConfusion h
      · injection h with h
        subst h
        rfl
    · injection h with h
      subst h
      rfl
  · injection h with h
    subst h
    rfl

theorem validateSpec_not_ok_of_badMode
    (opts : SubmitJobOptions) (venv : ValidateEnv)
    (obj m : List (String × GoVal))
    (hspec : mapIndex obj "spec" = .mapv m)
    (hmode : ∀ v, lookupGo m "submissionMode" = some v → v ≠ .str "InteractiveMode") :
    ∀ o2, validateSpec opts venv obj ≠ .ok o2 := by
  intro o2 hok
  unfold validateSpec at hok
  split at hok
  · rename_i specMap hspec2
    rw [hspec] at hspec2
    injection hspec2 with h
    subst h
    split at hok
    · exact ValidateRes.noConfusion hok
    · exact ValidateRes.noConfusion hok
    · rename_i s hv
      split at hok
      · rename_i hs
        subst hs
        exact absurd rfl (hmode _ hv)
      · exact ValidateRes.noConfusion hok
    · exact ValidateRes.noConfusion hok
    · exact ValidateRes.noConfusion hok
  · exact ValidateRes.noConfusion hok

theorem validateSpec_not_ok_of_noWD
    (opts : SubmitJobOptions) (venv : ValidateEnv)
    (obj : List (String × GoVal))
    (hwd : opts.workingDir = "") :
    ∀ o2, validateSpec opts venv obj ≠ .ok o2 := by
  intro o2 hok
  unfold validateSpec at hok
  split at hok
  · rename_i specMap hspec
    split at hok
    · exact ValidateRes.noConfusion hok
    · exact ValidateRes.noConfusion hok
    · split at hok
      · split at hok
        · exact ValidateRes.noConfusion hok
        · rename_i opts2 hjson
          split at hok
          · exact ValidateRes.noConfusion hok
          · rename_i hwd2
            exact hwd2 ((validateRuntimeEnvJson_workingDir _ _ _ _ hjson).trans hwd)
      · exact ValidateRes.noConfusion hok
    · exact ValidateRes.noConfusion hok
    · exact ValidateRes.noConfusion hok
  · exact ValidateRes.noConfusion hok

theorem validateRuntimeEnv_skip (opts : SubmitJobOptions) (venv : ValidateEnv)
    (hre : opts.runtimeEnv = "") :
    validateRuntimeEnv opts venv = .ok opts := by
  simp [validateRuntimeEnv, hre]

theorem Validate_not_ok_of_badMode
    (opts : SubmitJobOptions) (venv : ValidateEnv)
    (obj m : List (String × GoVal))
    (hdec : venv.decodedRayJob = some obj)
    (hspec : mapIndex obj "spec" = .mapv m)
    (hmode : ∀ v, lookupGo m "submissionMode" = some v → v ≠ .str "InteractiveMode") :
    ∀ o2, Validate opts venv ≠ .ok o2 := by
  intro o2 hok
  unfold Validate at hok
  split at hok
  · exact ValidateRes.noConfusion hok
  split at hok
  · exact ValidateRes.noConfusion hok
  split at hok
  · exact ValidateRes.noConfusion hok
  · exact ValidateRes.noConfusion hok
  · rename_i opts1 hstep
    split at hok
    · exact ValidateRes.noConfusion hok
    · exact ValidateRes.noConfusion hok
    · exact ValidateRes.noConfusion hok
    · split at hok
      · exact ValidateRes.noConfusion hok
      · rename_i obj2 hdec2
        rw [hdec] at hdec2
        injection hdec2 with h
        subst h
        exact validateSpec_not_ok_of_badMode opts1 venv obj m hspec hmode o2 hok

theorem Validate_not_ok_of_noWD
    (opts : SubmitJobOptions) (venv : ValidateEnv)
    (hwd : opts.workingDir = "")
    (hre : opts.runtimeEnv = "") :
    ∀ o2, Validate opts venv ≠ .ok o2 := by
  intro o2 hok
  unfold Validate at hok
  split at hok
  · exact ValidateRes.noConfusion hok
  split at hok
  · exact ValidateRes.noConfusion hok
  split at hok
  · exact ValidateRes.noConfusion hok
  · exact ValidateRes.noConfusion hok
  · rename_i opts1 hstep
    rw [validateRuntimeEnv_skip opts venv hre] at hstep
    injection hstep with h
    subst h
    split at hok
    · exact ValidateRes.noConfusion hok
    · exact ValidateRes.noConfusion hok
    · exact ValidateRes.noConfusion hok
    · split at hok
      · exact ValidateRes.noConfusion hok
      · exact validateSpec_not_ok_of_noWD opts venv _ hwd o2 hok

theorem Complete_preserves (opts : SubmitJobOptions) (hre : opts.runtimeEnv = "") :
    (Complete opts).workingDir = opts.workingDir ∧ (Complete opts).runtimeEnv = "" := by
  simp [Complete, hre]

/-! ## C1 lemmas: the handoff delivers at most one identifier, first match wins -/

theorem scanTokenDelivery_of_ne (jobID : String) (h : jobID ≠ "") :
    ∀ lines, scanTokenDelivery jobID lines = []
  | [] => rfl
  | line :: rest => by
    unfold scanTokenDelivery
    rw [if_neg fun hc => h hc.2]
    exact scanTokenDelivery_of_ne jobID h rest

theorem extractQuotedID_ne_empty {line id : String} (h : extractQuotedID line = some id) :
    id ≠ "" := by
  unfold extractQuotedID at h
  split at h
  · obtain ⟨seg, hfind, hmk⟩ := Option.map_eq_some'.mp h
    have hseg := List.find?_some hfind
    subst hmk
    intro hid
    have hnil : seg = [] := by simpa using congrArg String.data hid
    rw [hnil] at hseg
    exact absurd hseg (by decide)
  · exact Option.noConfusion h

theorem scanTokenDelivery_length (lines : List String) :
    (scanTokenDelivery "" lines).length ≤ 1 := by
  induction lines with
  | nil => simp [scanTokenDelivery]
  | cons line rest ih =>
    unfold scanTokenDelivery
    by_cases hl : line ≠ "" ∧ ("" : String) = ""
    · rw [if_pos hl]
      cases hex : extractQuotedID line with
      | some id =>
        show (id :: scanTokenDelivery id rest).length ≤ 1
        rw [scanTokenDelivery_of_ne id (extractQuotedID_ne_empty hex) rest]
        simp
      | none => exact ih
    · rw [if_neg hl]
      exact ih

theorem scanTokenDelivery_head (lines : List String) :
    (scanTokenDelivery "" lines).head? = firstMatchDelivery lines := by
  induction lines with
  | nil => rfl
  | cons line rest ih =>
    unfold scanTokenDelivery firstMatchDelivery
    rw [List.findSome?_cons]
    by_cases hl : line = ""
    · subst hl
      simpa [firstMatchDelivery] using ih
    · rw [if_pos ⟨hl, rfl⟩]
      cases hex : extractQuotedID line with
      | some id => simp [hl, hex]
      | none => simpa [hl, hex, firstMatchDelivery] using ih

/-- C1: with no pre-supplied submission id, the correlation delivers at most
one identifier through the handoff channel even if several stdout lines
match; the delivered identifier is the first quoted marker substring of the
earliest matching non-empty line (first-match-wins); on the example stdout
sequence the identifier placed in the resource annotation is
`raysubmit_abc123`. -/
theorem c1_job_id_handoff :
    ∀ lines : List String,
      (scanTokenDelivery "" lines).length ≤ 1
      ∧ (scanTokenDelivery "" lines).head? = firstMatchDelivery lines
      ∧ deliveredJobID ""
          ["starting", "Job 'raysubmit_abc123' submitted",
            "Job 'raysubmit_xyz999' submitted"] = some "raysubmit_abc123"
      ∧ (annotateJobID [] "raysubmit_abc123").lookup "ray.io/ray-job-submission-id"
          = some "raysubmit_abc123" := by
  intro lines
  exact ⟨scanTokenDelivery_length lines, scanTokenDelivery_head lines, by decide, by decide⟩

/-! ## The claims -/

/-- C2: if the backing cluster does not become ready within the fixed
cluster-readiness timeout, `Run` deletes the RayJob it created before
reporting the timeout failure, and a failure of that deletion is itself
reported as fatal; on a port-forward readiness timeout `Run` reports failure
without deleting the RayJob. -/
theorem c2_compensating_delete :
    ∀ (opts : SubmitJobOptions) (env : RunEnv) (name : String),
      env.createErr = false →
      0 < env.jobName.length →
      (statusLoop env env.statusFuel 0 env.initialStatusNil).2 = .done →
      env.clusterNameVal = .str name →
      0 < name.length →
      (((∀ i, env.clusterFetchErr i = false) →
        (∀ i, (isRayClusterReady (env.clusterStatus i)).1 = false) →
        Action.deleteJob ∈ (runModel opts env).1
        ∧ (env.deleteErr = true → (runModel opts env).2 = .err deleteFailMsg)
        ∧ (env.deleteErr = false → (runModel opts env).2 = .err clusterTimeoutMsg))
      ∧ ((∀ i, env.clusterFetchErr i = false) →
        (∃ k, (isRayClusterReady (env.clusterStatus k)).1 = true ∧ 2 * k ≤ clusterTimeout) →
        env.svcErr = false →
        (∀ i, ∃ c, env.probeResp i = some c ∧ ¬(200 ≤ c ∧ c < 300)) →
        (runModel opts env).2 = .err pfTimeoutMsg
        ∧ Action.deleteJob ∉ (runModel opts env).1)) := by
  intro opts env name hcreate hname hstatus hcval hlen
  unfold runModel
  rw [hcreate]
  simp only [Bool.false_eq_true, if_false]
  rw [if_pos hname]
  rcases hst : statusLoop env env.statusFuel 0 env.initialStatusNil with ⟨tr, so⟩
  rw [hst] at hstatus
  simp only at hstatus
  subst hstatus
  rw [hcval]
  dsimp only
  rw [if_pos hlen]
  constructor
  · intro hf hnr
    have hto := genLoop_timeout (clusterStep env) Action.getCluster clusterTimeout
      (fun j => by simp [clusterStep, hf j, hnr j])
    have hout : (clusterReadyLoop env).out = .timeout := hto.1
    rw [hout]
    cases hde : env.deleteErr <;> simp [hde]
  · intro hf hex hsvc hprobe
    have hrd := genLoop_ready (clusterStep env) Action.getCluster clusterTimeout
      (fun j => clusterStep_no_abort env j (hf j))
      (by
        obtain ⟨k, hk, hkt⟩ := hex
        exact ⟨k, by simp [clusterStep, hf k, hk], hkt⟩)
    have hout : (clusterReadyLoop env).out = .ready := hrd.1
    rw [hout]
    rw [hsvc]
    simp only [Bool.false_eq_true, if_false]
    have hpf := genLoop_timeout (pfStep env) Action.probe portforwardtimeout
      (fun j => by
        obtain ⟨c, hc, h2⟩ := hprobe j
        simp [pfStep, hc, h2])
    have hpfout : (portforwardLoop env).out = .timeout := hpf.1
    rw [hpfout]
    refine ⟨rfl, ?_⟩
    intro hmem
    rcases List.mem_cons.mp hmem with h | h
    · simp at h
    · rcases List.mem_append.mp h with h | hpfm
      · rcases List.mem_append.mp h with h | hsvcm
        · rcases List.mem_append.mp h with htr | hclm
          · obtain ⟨j, hj⟩ := statusLoop_trace_gets env env.statusFuel 0 env.initialStatusNil
              Action.deleteJob (by rw [hst]; exact htr)
            simp at hj
          · obtain ⟨j, hj⟩ := genLoop_trace_acts (clusterStep env) Action.getCluster
              clusterTimeout Action.deleteJob hclm
            simp at hj
        · simp at hsvcm
      · obtain ⟨j, hj⟩ := genLoop_trace_acts (pfStep env) Action.probe portforwardtimeout
          Action.deleteJob hpfm
        simp at hj

/-- Witness for C2: a run whose cluster never turns ready deletes the RayJob
and reports the cluster timeout; a run whose probe always answers 503 reports
the port-forward timeout without deleting. -/
theorem c2_compensating_delete_witness :
    (Action.deleteJob ∈ (runModel {} { clusterStatus := fun _ => ⟨none, some "pending"⟩ }).1
      ∧ (runModel {} { clusterStatus := fun _ => ⟨none, some "pending"⟩ }).2
          = .err clusterTimeoutMsg)
    ∧ ((runModel {} { probeResp := fun _ => some 503 }).2 = .err pfTimeoutMsg
      ∧ Action.deleteJob ∉ (runModel {} { probeResp := fun _ => some 503 }).1) := by
  constructor
  · have h := (c2_compensating_delete {} { clusterStatus := fun _ => ⟨none, some "pending"⟩ }
      "raycluster-sample" rfl (by decide) rfl rfl (by decide)).1 (fun _ => rfl) (fun _ => rfl)
    exact ⟨h.1, h.2.2 rfl⟩
  · exact (c2_compensating_delete {} { probeResp := fun _ => some 503 } "raycluster-sample"
      rfl (by decide) rfl rfl (by decide)).2 (fun _ => rfl)
      ⟨0, rfl, by decide⟩ rfl (fun i => ⟨503, rfl, by decide⟩)

/-- C3 counterexample: with a Get error on the very first readiness
iteration (elapsed 2s, far below the 120s deadline), `Run` returns the fetch
error as fatal after a single fetch — the error is not logged-and-retried as
the claim states. -/
theorem c3_counterexample :
    (runModel {} { clusterFetchErr := fun _ => true }).2 = .err clusterFetchErrMsg
    ∧ (clusterReadyLoop { clusterFetchErr := fun _ => true }).fetches = 1
    ∧ (clusterReadyLoop { clusterFetchErr := fun _ => true }).elapsed = 2 := by
  exact ⟨by decide, by decide, by decide⟩

/-- C3 amended: in the cluster-readiness loop a fetch error is surfaced
immediately as fatal (exactly like a fetch error in the status-existence
check); what is logged and retried until the deadline is the
undetermined-readiness verdict of `isRayClusterReady`, which on its own can
never abort the loop. -/
theorem c3_amended_fetch_error_policy :
    ∀ (opts : SubmitJobOptions) (env : RunEnv) (name : String),
      (∀ k : Nat,
        env.createErr = false →
        0 < env.jobName.length →
        (statusLoop env env.statusFuel 0 env.initialStatusNil).2 = .done →
        env.clusterNameVal = .str name →
        0 < name.length →
        (∀ j, j < k → env.clusterFetchErr j = false
          ∧ (isRayClusterReady (env.clusterStatus j)).1 = false) →
        env.clusterFetchErr k = true →
        2 * k ≤ clusterTimeout →
        (runModel opts env).2 = .err clusterFetchErrMsg)
      ∧ ((∀ j, env.clusterFetchErr j = false) →
        ∀ r, (clusterReadyLoop env).out ≠ .abort r)
      ∧ (env.createErr = false →
        0 < env.jobName.length →
        env.initialStatusNil = true →
        env.statusGetErr 0 = true →
        0 < env.statusFuel →
        (runModel opts env).2 = .err statusGetErrMsg) := by
  intro opts env name
  refine ⟨?_, ?_, ?_⟩
  · intro k hcreate hname hstatus hcval hlen hbefore hk hkt
    unfold runModel
    rw [hcreate]
    simp only [Bool.false_eq_true, if_false]
    rw [if_pos hname]
    rcases hst : statusLoop env env.statusFuel 0 env.initialStatusNil with ⟨tr, so⟩
    rw [hst] at hstatus
    simp only at hstatus
    subst hstatus
    rw [hcval]
    dsimp only
    rw [if_pos hlen]
    have hstep : clusterStep env k = .abort (.err clusterFetchErrMsg) := by
      simp [clusterStep, hk]
    have hbef : ∀ j, j < k → clusterStep env j = .notReady := by
      intro j hj
      obtain ⟨h1, h2⟩ := hbefore j hj
      simp [clusterStep, h1, h2]
    have hab := genLoopF_abort (clusterStep env) Action.getCluster clusterTimeout k
      (.err clusterFetchErrMsg) hbef hstep hkt (clusterTimeout / 2 + 2) 0
      (by omega) (by omega)
    simp only [Nat.mul_zero] at hab
    have hout : (clusterReadyLoop env).out = .abort (.err clusterFetchErrMsg) := hab.1
    rw [hout]
  · intro hf r
    exact genLoopF_no_abort (clusterStep env) Action.getCluster clusterTimeout
      (fun j r2 => clusterStep_no_abort env j (hf j) r2)
      (clusterTimeout / 2 + 2) 0 0 r
  · intro hcreate hname hinit hget hfuel
    unfold runModel
    rw [hcreate]
    simp only [Bool.false_eq_true, if_false]
    rw [if_pos hname]
    obtain ⟨f, hf⟩ : ∃ f, env.statusFuel = f + 1 := ⟨env.statusFuel - 1, by omega⟩
    rw [hf, hinit]
    unfold statusLoop
    rw [if_pos hget]

/-- Witness for C3 (amended): concrete runs exercising all three conjuncts. -/
theorem c3_amended_witness :
    (runModel {} { clusterFetchErr := fun _ => true }).2 = .err clusterFetchErrMsg
    ∧ ((clusterReadyLoop {}).out ≠ .abort RunResult.panicked)
    ∧ (runModel {} { initialStatusNil := true, statusGetErr := fun _ => true }).2
        = .err statusGetErrMsg := by
  refine ⟨?_, ?_, ?_⟩
  · exact (c3_amended_fetch_error_policy {} { clusterFetchErr := fun _ => true }
      "raycluster-sample").1 0 rfl (by decide) rfl rfl (by decide)
      (fun j hj => absurd hj (by omega)) rfl (by decide)
  · exact (c3_amended_fetch_error_policy {} {} "raycluster-sample").2.1 (fun _ => rfl)
      RunResult.panicked
  · exact (c3_amended_fetch_error_policy {}
      { initialStatusNil := true, statusGetErr := fun _ => true }
      "raycluster-sample").2.2 rfl (by decide) rfl rfl (by decide)

/-- C4: claimed behaviour holds for responses — any 2xx status reports ready
and a non-2xx response is retried — but a transport error does not lead to a
logged retry: the response pointer is nil and reading its status code panics
(the run ends `panicked` after a single probe instead of continuing). -/
theorem c4_probe_transport_error_panics :
    (runModel {} { probeResp := fun _ => none }).2 = .panicked
    ∧ (portforwardLoop { probeResp := fun _ => none }).fetches = 1
    ∧ (∀ c : Nat, 200 ≤ c → c < 300 →
        pfStep { probeResp := fun _ => some c } 0 = .ready)
    ∧ pfStep { probeResp := fun _ => some 404 } 0 = .notReady := by
  refine ⟨by decide, by decide, ?_, by decide⟩
  intro c h1 h2
  simp [pfStep, h1, h2]

/-- Witness for C4 at status code 204. -/
theorem c4_probe_transport_error_panics_witness :
    pfStep { probeResp := fun _ => some 204 } 0 = .ready :=
  c4_probe_transport_error_panics.2.2.1 204 (by decide) (by decide)

/-- C5 counterexample: a run whose only configuration error is malformed
entrypoint quoting passes validation, issues the RayJob create (the create
action is in the trace), and only later fails at command build — so such an
error is not surfaced before the create side effect. -/
theorem c5_counterexample :
    Action.createJob ∈
      (runE { entryPoint := "python 'oops", workingDir := "/w", fileName := "job.yaml" }
        { decodedRayJob := some [("spec", .mapv [("submissionMode", .str "InteractiveMode")])] }
        {}).1
    ∧ (runE { entryPoint := "python 'oops", workingDir := "/w", fileName := "job.yaml" }
        { decodedRayJob := some [("spec", .mapv [("submissionMode", .str "InteractiveMode")])] }
        {}).2 = .err buildErrMsg := ⟨by decide, by decide⟩

/-- C5 amended: an unaccepted submission mode (missing, null, or any value
other than `InteractiveMode`) and a missing working directory each make the
pipeline fail during validation with an empty action trace — before the
create call; malformed entrypoint quoting, by contrast, is only surfaced at
command-build time (after create), though still before any submission
process is launched. -/
theorem c5_amended_config_error_timing :
    (∀ (opts : SubmitJobOptions) (venv : ValidateEnv) (renv : RunEnv)
        (obj m : List (String × GoVal)),
      venv.decodedRayJob = some obj →
      mapIndex obj "spec" = .mapv m →
      (∀ v, lookupGo m "submissionMode" = some v → v ≠ .str "InteractiveMode") →
      (runE opts venv renv).1 = [] ∧ (runE opts venv renv).2 ≠ .ok)
    ∧ (∀ (opts : SubmitJobOptions) (venv : ValidateEnv) (renv : RunEnv),
      opts.workingDir = "" → opts.runtimeEnv = "" →
      (runE opts venv renv).1 = [] ∧ (runE opts venv renv).2 ≠ .ok)
    ∧ (∀ (opts : SubmitJobOptions) (env : RunEnv) (e : String),
      raySubmitCmd opts = .error e →
      Action.startProcess ∉ (runModel opts env).1) := by
  refine ⟨?_, ?_, ?_⟩
  · intro opts venv renv obj m hdec hspec hmode
    unfold runE
    rcases hval : Validate (Complete opts) venv with _ | msg | o2
    · exact ⟨rfl, by simp⟩
    · exact ⟨rfl, by simp⟩
    · exact absurd hval (Validate_not_ok_of_badMode _ venv obj m hdec hspec hmode o2)
  · intro opts venv renv hwd hre
    unfold runE
    rcases hval : Validate (Complete opts) venv with _ | msg | o2
    · exact ⟨rfl, by simp⟩
    · exact ⟨rfl, by simp⟩
    · have hc := Complete_preserves opts hre
      exact absurd hval (Validate_not_ok_of_noWD _ venv (hc.1.trans hwd) hc.2 o2)
  · intro opts env e herr hmem
    obtain ⟨toks, hok⟩ := startProcess_mem opts env hmem
    rw [herr] at hok
    exact Except.noConfusion hok

/-- Witness for C5 (amended): a spec without a submission mode, an options
value without a working directory, and a malformed entrypoint. -/
theorem c5_amended_witness :
    ((runE { fileName := "f", workingDir := "/w" }
        { decodedRayJob := some [("spec", .mapv [])] } {}).1 = []
      ∧ (runE { fileName := "f", workingDir := "/w" }
          { decodedRayJob := some [("spec", .mapv [])] } {}).2 ≠ .ok)
    ∧ ((runE { fileName := "f" }
        { decodedRayJob :=
            some [("spec", .mapv [("submissionMode", .str "InteractiveMode")])] } {}).1 = []
      ∧ (runE { fileName := "f" }
          { decodedRayJob :=
              some [("spec", .mapv [("submissionMode", .str "InteractiveMode")])] } {}).2 ≠ .ok)
    ∧ Action.startProcess ∉
        (runModel { entryPoint := "python 'oops", workingDir := "/w" } {}).1 := by
  refine ⟨?_, ?_, ?_⟩
  · exact c5_amended_config_error_timing.1 _ _ _ _ _ rfl rfl
      (fun v hv => Option.noConfusion hv)
  · exact c5_amended_config_error_timing.2.1 _ _ _ rfl rfl
  · exact c5_amended_config_error_timing.2.2 _ {} "EOF found when expecting closing quote"
      (by decide)

/-- C6: the readiness predicate is true exactly when the status carries a
true "Ready" condition or a plain state string `"ready"` (logical OR); when
neither signal is present it returns false together with the
undetermined-state error, which the polling loop treats as retryable (it
never aborts the loop). -/
theorem c6_cluster_ready_predicate :
    ∀ st : ClusterStatus,
      (((isRayClusterReady st).1 = true) ↔
        ((∃ conds, st.conditions = some conds ∧ IsStatusConditionTrue conds "Ready" = true)
          ∨ st.state = some "ready"))
      ∧ ((isRayClusterReady st).1 = false →
          (isRayClusterReady st).2 = some "Cannot determine cluster state")
      ∧ (∀ (env : RunEnv) (i : Nat), env.clusterFetchErr i = false →
          (isRayClusterReady (env.clusterStatus i)).1 = false →
          clusterStep env i = .notReady) := by
  intro st
  refine ⟨?_, ?_, ?_⟩
  · rcases st with ⟨co, sta⟩
    cases co <;> cases sta <;>
      simp only [isRayClusterReady] <;>
      split <;>
      rename_i hcond <;>
      simp_all
  · intro h
    simp only [isRayClusterReady] at h ⊢
    split at h <;> rename_i hc
    · simp at h
    · rw [if_neg hc]
  · intro env i h1 h2
    simp [clusterStep, h1, h2]

/-- Witness for C6: the three example statuses of the specification. -/
theorem c6_cluster_ready_predicate_witness :
    (isRayClusterReady ⟨none, none⟩).2 = some "Cannot determine cluster state"
    ∧ (isRayClusterReady ⟨none, some "ready"⟩).1 = true
    ∧ (isRayClusterReady ⟨some [⟨"Ready", "True"⟩], some "pending"⟩).1 = true :=
  ⟨(c6_cluster_ready_predicate ⟨none, none⟩).2.1 (by decide),
   (c6_cluster_ready_predicate ⟨none, some "ready"⟩).1.mpr (Or.inr rfl),
   (c6_cluster_ready_predicate ⟨some [⟨"Ready", "True"⟩], some "pending"⟩).1.mpr
     (Or.inl ⟨[⟨"Ready", "True"⟩], rfl, by decide⟩)⟩

/-- C7: the builder equals the specification-side construction (base command
and endpoint, the optional flags in their fixed order, the always-present
working-dir flag, the separator, the shell-tokenized entrypoint); quoted
arguments containing spaces survive as single tokens; malformed quoting
yields a parse error, no vector, and no submission process is ever started. -/
theorem c7_command_builder :
    (∀ o : SubmitJobOptions, raySubmitCmd o = raySubmitCmdSpec o)
    ∧ shlexSplit "python script.py --flag 'a b c'"
        = .ok ["python", "script.py", "--flag", "a b c"]
    ∧ shlexSplit "python 'oops" = .error "EOF found when expecting closing quote"
    ∧ (∀ (o : SubmitJobOptions) (e : String), shlexSplit o.entryPoint = .error e →
        raySubmitCmd o = .error e)
    ∧ (∀ (o : SubmitJobOptions) (env : RunEnv) (e : String),
        raySubmitCmd o = .error e → Action.startProcess ∉ (runModel o env).1) := by
  refine ⟨?_, by decide, by decide, ?_, ?_⟩
  · intro o
    unfold raySubmitCmd raySubmitCmdSpec optFlag
    cases hs : shlexSplit o.entryPoint <;>
      simp only [hs, Except.map, append_ite]
  · intro o e hs
    unfold raySubmitCmd
    rw [hs]
  · intro o env e herr hmem
    obtain ⟨toks, hok⟩ := startProcess_mem o env hmem
    rw [herr] at hok
    exact Except.noConfusion hok

/-- Witness for C7: the malformed entrypoint and its consequences. -/
theorem c7_command_builder_witness :
    raySubmitCmd { entryPoint := "python 'oops", workingDir := "/w" }
      = .error "EOF found when expecting closing quote"
    ∧ Action.startProcess ∉
        (runModel { entryPoint := "python 'oops", workingDir := "/w" } {}).1 := by
  constructor
  · exact c7_command_builder.2.2.2.1 { entryPoint := "python 'oops", workingDir := "/w" }
      "EOF found when expecting closing quote" (by decide)
  · exact c7_command_builder.2.2.2.2 { entryPoint := "python 'oops", workingDir := "/w" } {}
      "EOF found when expecting closing quote" (by decide)

/-- C8: in both readiness loops, if the predicate never turns true the loop
reports timeout only after elapsed time exceeds the deadline, overrunning it
by at most one poll interval; if the predicate turns true strictly before
the deadline the loop reports ready with between 1 and deadline/interval + 1
fetches (intervals are 2 seconds, so this is ceil(deadline/interval)+1). -/
theorem c8_poll_loop_bounds :
    ∀ env : RunEnv,
      ((∀ i, env.clusterFetchErr i = false) →
        (((∀ i, (isRayClusterReady (env.clusterStatus i)).1 = false) →
            (clusterReadyLoop env).out = .timeout
            ∧ clusterTimeout < (clusterReadyLoop env).elapsed
            ∧ (clusterReadyLoop env).elapsed ≤ clusterTimeout + 2)
          ∧ ((∃ k, (isRayClusterReady (env.clusterStatus k)).1 = true
                ∧ 2 * (k + 1) < clusterTimeout) →
            (clusterReadyLoop env).out = .ready
            ∧ 1 ≤ (clusterReadyLoop env).fetches
            ∧ (clusterReadyLoop env).fetches ≤ clusterTimeout / 2 + 1)))
      ∧ ((∀ i, ∃ c, env.probeResp i = some c) →
        (((∀ i c, env.probeResp i = some c → ¬(200 ≤ c ∧ c < 300)) →
            (portforwardLoop env).out = .timeout
            ∧ portforwardtimeout < (portforwardLoop env).elapsed
            ∧ (portforwardLoop env).elapsed ≤ portforwardtimeout + 2)
          ∧ ((∃ k c, env.probeResp k = some c ∧ (200 ≤ c ∧ c < 300)
                ∧ 2 * (k + 1) < portforwardtimeout) →
            (portforwardLoop env).out = .ready
            ∧ 1 ≤ (portforwardLoop env).fetches
            ∧ (portforwardLoop env).fetches ≤ portforwardtimeout / 2 + 1))) := by
  intro env
  constructor
  · intro hf
    constructor
    · intro hnr
      exact genLoop_timeout _ _ _ fun j => by simp [clusterStep, hf j, hnr j]
    · intro ⟨k, hk, hkt⟩
      refine genLoop_ready _ _ _ (fun j => clusterStep_no_abort env j (hf j))
        ⟨k, ?_, by omega⟩
      simp [clusterStep, hf k, hk]
  · intro hsome
    constructor
    · intro hnr
      refine genLoop_timeout _ _ _ fun j => ?_
      obtain ⟨c, hc⟩ := hsome j
      simp [pfStep, hc, hnr j c hc]
    · intro ⟨k, c, hc, h2xx, hkt⟩
      refine genLoop_ready _ _ _
        (fun j => (hsome j).elim fun cj hcj => pfStep_no_abort env j hcj)
        ⟨k, ?_, by omega⟩
      simp [pfStep, hc, h2xx]

/-- Witness for C8: a never-ready cluster loop and a first-tick-ready probe
loop. -/
theorem c8_poll_loop_bounds_witness :
    ((clusterReadyLoop { clusterStatus := fun _ => ⟨none, some "pending"⟩ }).out = .timeout
      ∧ clusterTimeout
          < (clusterReadyLoop { clusterStatus := fun _ => ⟨none, some "pending"⟩ }).elapsed
      ∧ (clusterReadyLoop { clusterStatus := fun _ => ⟨none, some "pending"⟩ }).elapsed
          ≤ clusterTimeout + 2)
    ∧ ((portforwardLoop {}).out = .ready
      ∧ 1 ≤ (portforwardLoop {}).fetches
      ∧ (portforwardLoop {}).fetches ≤ portforwardtimeout / 2 + 1) :=
  ⟨((c8_poll_loop_bounds { clusterStatus := fun _ => ⟨none, some "pending"⟩ }).1
      (fun _ => rfl)).1 (fun _ => rfl),
   ((c8_poll_loop_bounds {}).2 (fun _ => ⟨200, rfl⟩)).2 ⟨0, 200, rfl, by decide, by decide⟩⟩

/-- C9: the builder is pure and idempotent — the state-threaded translation
returns the receiver unchanged and the same vector as the direct function,
so two successive invocations on identical option values yield identical
argument vectors. -/
theorem c9_builder_pure_idempotent :
    ∀ o : SubmitJobOptions,
      (raySubmitCmdSt o).2 = o
      ∧ (raySubmitCmdSt o).1 = raySubmitCmd o
      ∧ (buildTwice o).1 = (buildTwice o).2 := by
  intro o
  have hsnd : (raySubmitCmdSt o).2 = o := by
    unfold raySubmitCmdSt
    cases hs : shlexSplit o.entryPoint <;> simp [hs, apply_ite Prod.snd]
  have hfst : (raySubmitCmdSt o).1 = raySubmitCmd o := by
    unfold raySubmitCmdSt raySubmitCmd
    cases hs : shlexSplit o.entryPoint <;>
      simp [hs, apply_ite Prod.fst, apply_ite Prod.snd]
  refine ⟨hsnd, hfst, ?_⟩
  unfold buildTwice
  dsimp only
  rw [hsnd]

/-- C10: `Validate` is not total — a runtime-env mapping without a
`working_dir` string and a RayJob object whose `spec` is absent or not a
mapping each hit a failed unchecked type assertion (a panic), not a
descriptive error. -/
theorem c10_validate_not_total :
    runtimeEnvHasWorkingDir [] = .panicked
    ∧ runtimeEnvHasWorkingDir [("working_dir", .nilv)] = .panicked
    ∧ runtimeEnvHasWorkingDir [("setup", .str "pip")] = .panicked
    ∧ Validate { fileName := "f", runtimeEnv := "re", workingDir := "/w" }
        { runtimeEnvRead := some [("setup", .str "pip")], decodedRayJob := some [] }
        = .panicked
    ∧ Validate { fileName := "f", workingDir := "/w" } { decodedRayJob := some [] }
        = .panicked
    ∧ Validate { fileName := "f", workingDir := "/w" }
        { decodedRayJob := some [("spec", .str "oops")] } = .panicked :=
  ⟨rfl, rfl, rfl, by decide, by decide, by decide⟩

end RaySubmit
